import Mathlib

/-!
Verification development for the product-scraper bulk job client.

Part 1 embeds the snapshot-merge logic of the `setResults` updater in
`handlePollSuccess` (src/frontend/components/bulk-upload-form.tsx).
Part 2 embeds the `usePolling` hook (the Poller) as a state machine.
Part 3 embeds the retry guards of `BulkResultsTable`
(src/frontend/components/bulk-results-table.tsx) together with the
retry orchestration that the spec describes.
-/

namespace ProductScraper

/-- Per-item status, from the `"success" | "error" | "pending"` union of
the `ScrapeResult` interface. -/
inductive Status where
  | pending
  | success
  | error
deriving DecidableEq, Repr

/-- One result slot, from `interface ScrapeResult` in
bulk-upload-form.tsx.  The `product` payload and the Excel-row metadata
are modelled by opaque numeric identities; `error` is the error
message. -/
structure ScrapeResult where
  status : Status
  product : Option Nat
  error : Option String
  originalExcelRow : Option Nat
deriving DecidableEq, Repr

/-- JavaScript `a?.x || b.x` on the metadata field: the left value when
present (the field holds an object, hence truthy), otherwise the right
one. -/
def jsOr (a b : Option Nat) : Option Nat :=
  match a with
  | some v => some v
  | none => b

/-- One in-range iteration of the `data.results.forEach` body in the
`setResults` updater of `handlePollSuccess` (bulk-upload-form.tsx,
lines 462-489), for a slot index that exists in the local list.
Returns `some v` when the body writes `v` to the slot (and sets
`hasChanges`), `none` when the body leaves the slot alone. -/
def mergeSlot (existing r : ScrapeResult) : Option ScrapeResult :=
  if r.status ≠ Status.pending then
    -- resolved snapshot entry: overwrite when status, product or error differ
    if existing.status ≠ r.status ∨ existing.product ≠ r.product ∨
        existing.error ≠ r.error then
      some { r with originalExcelRow := jsOr existing.originalExcelRow r.originalExcelRow }
    else
      none
  else
    -- pending snapshot entry: written only over a still-pending local slot
    if existing.status = Status.pending then
      some { r with originalExcelRow := jsOr existing.originalExcelRow r.originalExcelRow }
    else
      none

/-- The whole `forEach` loop of the `setResults` updater: walks the
snapshot entries index-aligned with the local list.  Entries beyond the
local length are appended (both the resolved branch with an undefined
`existingResult` and the `index >= newResults.length` push write the
entry itself).  The Bool is the loop's `hasChanges` flag. -/
def mergeLists : List ScrapeResult → List ScrapeResult → Bool × List ScrapeResult
  | prev, [] => (false, prev)
  | [], r :: rs =>
      let rest := mergeLists [] rs
      (true, r :: rest.2)
  | e :: ps, r :: rs =>
      let rest := mergeLists ps rs
      match mergeSlot e r with
      | some v => (true, v :: rest.2)
      | none => (rest.1, e :: rest.2)

/-- The value returned by the `setResults` updater: the rebuilt list
when `hasChanges` was set, the previous list object otherwise. -/
def handlePollSuccessResults (prev snapshot : List ScrapeResult) : List ScrapeResult :=
  if (mergeLists prev snapshot).1 then (mergeLists prev snapshot).2 else prev

/-- The guard at the top of `handlePollSuccess`: a stale callback with a
cleared job id returns before touching the result list. -/
def handlePollSuccessMerge (jobId : Option String)
    (prev snapshot : List ScrapeResult) : List ScrapeResult :=
  match jobId with
  | none => prev
  | some _ => handlePollSuccessResults prev snapshot

/-- Slot value after the merge when there is a snapshot entry for it:
the written value, or the untouched local slot. -/
def mergedSlot (e r : ScrapeResult) : ScrapeResult :=
  (mergeSlot e r).getD e

/-!
Part 2: the `usePolling` hook (src/unnamed/part_009) as a state
machine.  React's single-threaded event loop interleaves only whole
synchronous blocks, so each handler in the hook (the enabled-effect,
the initial-delay timeout, an interval tick, the max-duration timeout,
the resolution of an awaited fetch, unmount) is one atomic step.  Timer
refs are modelled by their pending-ness; `inFlight` is a ghost counter
of outstanding `pollFn` invocations, `onSuccessCount`/`onErrorCount`
are ghost counters of callback invocations.
-/

/-- Mutable state of one `usePolling` instance. -/
structure PollerState where
  mounted : Bool
  enabledRef : Bool
  isPollingRef : Bool
  isPolling : Bool
  intervalTimer : Bool
  timeoutTimer : Bool
  initialTimer : Bool
  startTime : Option Nat
  dataVal : Option Nat
  errorVal : Option String
  inFlight : Nat
  onSuccessCount : Nat
  onErrorCount : Nat
deriving DecidableEq, Repr

/-- Static configuration of one `usePolling` instance. -/
structure PollerConfig where
  maxDuration : Option Nat
  shouldStop : Nat → Bool

/-- `stopPolling` (part_009 lines 48-64): resets the polling flags,
clears and nulls all three timers, resets the start time. -/
def stopPolling (s : PollerState) : PollerState :=
  { s with isPolling := false, isPollingRef := false,
           intervalTimer := false, timeoutTimer := false,
           initialTimer := false, startTime := none }

/-- The synchronous prefix of `poll()` when it actually launches the
fetch: sets the in-progress flag and hands the promise to `pollFn`. -/
def pollStart (s : PollerState) : PollerState :=
  { s with isPollingRef := true, inFlight := s.inFlight + 1 }

/-- Body of the main effect (lines 74-186) run after `enabledRef` has
been updated and the previous effect's cleanup (`stopPolling`) has run:
bail out when disabled, skip when already polling, otherwise start the
timers. -/
def effectBody (cfg : PollerConfig) (now : Nat) (s : PollerState) : PollerState :=
  if !s.enabledRef then stopPolling s
  else if s.isPollingRef || s.intervalTimer then s
  else
    { s with isPolling := true, startTime := some now,
             initialTimer := true, intervalTimer := true,
             timeoutTimer := cfg.maxDuration.isSome }

/-- The max-duration check inside a tick (line 137). -/
def expired (cfg : PollerConfig) (now : Nat) (s : PollerState) : Bool :=
  match cfg.maxDuration, s.startTime with
  | some d, some t0 => decide (now - t0 > d)
  | _, _ => false

/-- Events the hook can receive; each is one synchronous block of the
source. -/
inductive PollerEvent where
  | setEnabled (now : Nat) (b : Bool)
  | initialFire
  | tick (now : Nat)
  | maxFire
  | fetchSuccess (d : Nat)
  | fetchFailure (msg : String)
  | unmount
deriving Repr

/-- One step of the hook.

* `setEnabled`: React re-runs the effect only on a real change of the
  dependency and only while mounted; the ref-updating effect writes
  `enabledRef` first, then the previous polling effect's cleanup
  (`stopPolling`, line 183-185) runs, then the new body.
* `initialFire`: the 1s initial timeout (lines 91-122) fires, guards,
  and launches `poll()`.
* `tick`: the interval callback (lines 125-171).
* `maxFire`: the max-duration timeout (lines 174-181) fires.
* `fetchSuccess`/`fetchFailure`: the awaited `pollFn` promise settles
  and the rest of `poll()` runs (including its `finally`).
* `unmount`: the mount effect's cleanup (lines 66-72). -/
def step (cfg : PollerConfig) (s : PollerState) : PollerEvent → PollerState
  | .setEnabled now b =>
      if !s.mounted then s
      else if b == s.enabledRef then s
      else effectBody cfg now (stopPolling { s with enabledRef := b })
  | .initialFire =>
      if !s.initialTimer then s
      else
        let s1 := { s with initialTimer := false }
        if !s1.mounted || !s1.enabledRef || s1.isPollingRef then s1
        else pollStart s1
  | .tick now =>
      if !s.intervalTimer then s
      else if !s.mounted || !s.enabledRef then stopPolling s
      else if s.isPollingRef then s
      else if expired cfg now s then
        { stopPolling s with
            errorVal := some "Polling timeout: Maximum duration exceeded" }
      else pollStart s
  | .maxFire =>
      if !s.timeoutTimer then s
      else
        let s1 := { s with timeoutTimer := false }
        if s1.mounted && s1.enabledRef then
          { stopPolling s1 with
              errorVal := some "Polling timeout: Maximum duration exceeded" }
        else s1
  | .fetchSuccess d =>
      if s.inFlight = 0 then s
      else
        let s1 := { s with inFlight := s.inFlight - 1 }
        if !s1.mounted then { s1 with isPollingRef := false }
        else
          let s2 := { s1 with dataVal := some d, errorVal := none,
                              onSuccessCount := s1.onSuccessCount + 1 }
          if cfg.shouldStop d then stopPolling s2
          else { s2 with isPollingRef := false }
  | .fetchFailure msg =>
      if s.inFlight = 0 then s
      else
        let s1 := { s with inFlight := s.inFlight - 1 }
        if !s1.mounted then { s1 with isPollingRef := false }
        else
          { s1 with errorVal := some msg,
                    onErrorCount := s1.onErrorCount + 1,
                    isPollingRef := false }
  | .unmount =>
      if !s.mounted then s
      else stopPolling { s with mounted := false }

/-- Freshly mounted hook before its first effect run. -/
def pollerInit : PollerState :=
  { mounted := true, enabledRef := false, isPollingRef := false,
    isPolling := false, intervalTimer := false, timeoutTimer := false,
    initialTimer := false, startTime := none, dataVal := none,
    errorVal := none, inFlight := 0, onSuccessCount := 0, onErrorCount := 0 }

/-- Run a list of events. -/
def run (cfg : PollerConfig) (s : PollerState) : List PollerEvent → PollerState
  | [] => s
  | e :: es => run cfg (step cfg s e) es

/-- A disablement event. -/
def PollerEvent.isDisable : PollerEvent → Bool
  | .setEnabled _ false => true
  | _ => false

/-- A configuration with no max duration and a never-satisfied stop
predicate, used for concrete traces. -/
def cfg0 : PollerConfig := { maxDuration := none, shouldStop := fun _ => false }

/-- A fetch can only be launched from a state where the component is
mounted, polling is enabled, no poll is flagged in progress, and one of
the two launching timers is pending. -/
def canLaunch (s : PollerState) : Bool :=
  s.mounted && s.enabledRef && !s.isPollingRef &&
    (s.initialTimer || s.intervalTimer)

/-- Invariant carrying the single-in-flight property through
disablement-free traces: at most one fetch is outstanding, and while
one is outstanding the state cannot launch another (and is enabled, so
an enable event cannot sneak a restart in). -/
def C2Inv (s : PollerState) : Prop :=
  s.inFlight ≤ 1 ∧
    (s.inFlight = 1 → s.enabledRef = true ∧ canLaunch s = false)

/-- All three timers are clear. -/
def timersCleared (s : PollerState) : Prop :=
  s.intervalTimer = false ∧ s.timeoutTimer = false ∧ s.initialTimer = false

/-- Trace exhibiting the overlap: enable, launch the first fetch,
disable while it is outstanding (this resets `isPollingRef` without
cancelling the fetch), re-enable, and launch a second fetch. -/
def c2Trace : List PollerEvent :=
  [.setEnabled 0 true, .initialFire, .setEnabled 1 false,
   .setEnabled 2 true, .initialFire]

/-- Trace reaching a disabled state with one fetch still outstanding. -/
def c4Trace : List PollerEvent :=
  [.setEnabled 0 true, .initialFire, .setEnabled 1 false]

/-- A state in mid-poll with every timer pending, used to instantiate
the exit-path theorems. -/
def pollerStateEx : PollerState :=
  { mounted := true, enabledRef := true, isPollingRef := false,
    isPolling := true, intervalTimer := true, timeoutTimer := true,
    initialTimer := true, startTime := some 0, dataVal := none,
    errorVal := none, inFlight := 1, onSuccessCount := 0, onErrorCount := 0 }

/-- A configuration with a max duration and an always-true stop
predicate, used to instantiate the exit-path theorems. -/
def pollerCfgEx : PollerConfig :=
  { maxDuration := some 5, shouldStop := fun _ => true }

/-!
Part 3: retry.  `BulkResultsTable`
(src/frontend/components/bulk-results-table.tsx) declares the retry
surface — the `onRetryOne`/`onRetryAll`/`retryingIndices`/
`isRetryingAll` props and the `disabled` guards of the two retry
buttons — but the parent that implements the orchestration (adding and
removing registry indices, submitting retry jobs, splicing results
back) is not under src/; those parts are modelled from the spec
(§4.3 RetryOrchestrator) and marked as such.
-/

/-- State the results table receives plus the orchestrator's ghost
bookkeeping: `inFlightOne` records the indices whose single-slot retry
is outstanding, `inFlightAll` the number of outstanding retry-all
jobs. -/
structure RetryState where
  isScraping : Bool
  isRetryingAll : Bool
  retryingIndices : List Nat
  batch : List ScrapeResult
  inFlightOne : List Nat
  inFlightAll : Nat
deriving Repr

/-- From bulk-results-table.tsx (per-row retry button):
`disabled={isScraping || isRetryingAll || retryingIndices.has(index)}`. -/
def retryOneDisabled (st : RetryState) (i : Nat) : Bool :=
  st.isScraping || st.isRetryingAll || st.retryingIndices.contains i

/-- From bulk-results-table.tsx (header button):
`disabled={isScraping || isRetryingAll || retryingIndices.size > 0}`. -/
def retryAllDisabled (st : RetryState) : Bool :=
  st.isScraping || st.isRetryingAll || decide (st.retryingIndices.length > 0)

/-- Modelled from the spec: retry-all "collects every currently-error
slot" (§4.3); the source orchestration is not under src/.  Walks the
batch keeping the running index. -/
def collectErrorIndicesFrom : Nat → List ScrapeResult → List Nat
  | _, [] => []
  | k, s :: rest =>
      if s.status = Status.error then k :: collectErrorIndicesFrom (k + 1) rest
      else collectErrorIndicesFrom (k + 1) rest

/-- Modelled from the spec: the captured index map of a retry-all
submission — position `i` of the retry response corresponds to
`(collectErrorIndices batch)[i]` in the original batch. -/
def collectErrorIndices (batch : List ScrapeResult) : List Nat :=
  collectErrorIndicesFrom 0 batch

/-- Modelled from the spec: merging one retry result back at its
original index "preserving client-only metadata" (§4.3). -/
def applyRetryResult (slot r : ScrapeResult) : ScrapeResult :=
  { r with originalExcelRow := slot.originalExcelRow }

/-- Modelled from the spec: splice the retry job's result array back
onto the original indices through the captured index map, "never by
positional coincidence with the full batch" (§4.3). -/
def spliceRetryResults (batch : List ScrapeResult) (indexMap : List Nat)
    (response : List ScrapeResult) : List ScrapeResult :=
  (indexMap.zip response).foldl
    (fun acc p =>
      match acc[p.1]? with
      | some slot => acc.set p.1 (applyRetryResult slot p.2)
      | none => acc)
    batch

/-- Modelled from the spec: a completed retry-all applied to the
batch. -/
def retryAllSplice (batch response : List ScrapeResult) : List ScrapeResult :=
  spliceRetryResults batch (collectErrorIndices batch) response

/-- Orchestration events: button clicks (guarded by the table's
`disabled` conditions from src) and retry-job completions. -/
inductive RetryEvent where
  | clickOne (i : Nat)
  | resolveOne (i : Nat) (r : ScrapeResult)
  | clickAll
  | resolveAll (response : List ScrapeResult)
  | setScraping (b : Bool)
deriving Repr

/-- Modelled from the spec: one orchestration step.  A single-slot
retry requires the slot to be in error and the button enabled (§4.3
preconditions); it registers the index, marks the slot pending and
submits.  Completion (success, failure or iteration-cap exhaustion
alike) merges the result at the original index preserving metadata and
removes the index from the registry unconditionally.  Retry-all
requires an error slot and the header button enabled; completion
splices through the captured index map. -/
def retryStep (st : RetryState) : RetryEvent → RetryState
  | .clickOne i =>
      match st.batch[i]? with
      | some slot =>
          if slot.status = Status.error ∧ retryOneDisabled st i = false then
            { st with retryingIndices := i :: st.retryingIndices,
                      inFlightOne := i :: st.inFlightOne,
                      batch := st.batch.set i { slot with status := Status.pending } }
          else st
      | none => st
  | .resolveOne i r =>
      if st.inFlightOne.contains i then
        { st with inFlightOne := st.inFlightOne.erase i,
                  retryingIndices := st.retryingIndices.erase i,
                  batch :=
                    match st.batch[i]? with
                    | some slot => st.batch.set i (applyRetryResult slot r)
                    | none => st.batch }
      else st
  | .clickAll =>
      if st.batch.any (fun s => s.status == Status.error)
          ∧ retryAllDisabled st = false then
        { st with isRetryingAll := true, inFlightAll := st.inFlightAll + 1 }
      else st
  | .resolveAll response =>
      if st.inFlightAll ≠ 0 then
        { st with isRetryingAll := false, inFlightAll := st.inFlightAll - 1,
                  batch := retryAllSplice st.batch response }
      else st
  | .setScraping b => { st with isScraping := b }

/-- Orchestration state over a freshly delivered batch: nothing in
flight, empty registry. -/
def retryInit (batch : List ScrapeResult) : RetryState :=
  { isScraping := false, isRetryingAll := false, retryingIndices := [],
    batch := batch, inFlightOne := [], inFlightAll := 0 }

/-- Run a list of orchestration events. -/
def retryRun (st : RetryState) : List RetryEvent → RetryState
  | [] => st
  | e :: es => retryRun (retryStep st e) es

/-- Invariant tying the registry to the in-flight retries. -/
def RetryInv (st : RetryState) : Prop :=
  st.inFlightOne.Nodup ∧
  (∀ i ∈ st.inFlightOne, i ∈ st.retryingIndices) ∧
  st.inFlightAll = (if st.isRetryingAll then 1 else 0) ∧
  (st.isRetryingAll = true → st.inFlightOne = [])

/-- The C8 example batch `[A(error), B(success), C(error), D(error)]`. -/
def c8Batch : List ScrapeResult :=
  [⟨Status.error, none, some "a", some 10⟩,
   ⟨Status.success, some 1, none, some 11⟩,
   ⟨Status.error, none, some "c", some 12⟩,
   ⟨Status.error, none, some "d", some 13⟩]

/-- The C8 example retry response `[ok, fail, ok]`. -/
def c8Response : List ScrapeResult :=
  [⟨Status.success, some 2, none, none⟩,
   ⟨Status.error, none, some "f", none⟩,
   ⟨Status.success, some 3, none, none⟩]

theorem mergeSlot_status {e r v : ScrapeResult} (h : mergeSlot e r = some v) :
    v.status = r.status := by
  unfold mergeSlot at h
  split at h
  · split at h
    · cases h; rfl
    · cases h
  · split at h
    · cases h; rfl
    · cases h

theorem mergeSlot_pending {e r v : ScrapeResult} (h : mergeSlot e r = some v)
    (hr : r.status = Status.pending) : e.status = Status.pending := by
  unfold mergeSlot at h
  split at h
  · exact absurd hr (by assumption)
  · split at h
    · assumption
    · cases h

theorem mergeSlot_row {e r v : ScrapeResult} (h : mergeSlot e r = some v) :
    v.originalExcelRow = jsOr e.originalExcelRow r.originalExcelRow := by
  unfold mergeSlot at h
  split at h
  · split at h
    · cases h; rfl
    · cases h
  · split at h
    · cases h; rfl
    · cases h

/-- Characterisation of a merged list at an index that exists locally. -/
theorem mergeLists_get_lt {prev snap : List ScrapeResult} {i : Nat}
    {e : ScrapeResult} (h : prev[i]? = some e) :
    (mergeLists prev snap).2[i]? =
      some (match snap[i]? with
            | some r => mergedSlot e r
            | none => e) := by
  induction prev generalizing snap i with
  | nil => simp at h
  | cons e0 ps ih =>
    cases snap with
    | nil => simp [mergeLists, h]
    | cons r rs =>
      cases i with
      | zero =>
        simp at h
        subst h
        unfold mergeLists mergedSlot
        cases hm : mergeSlot e0 r <;> simp [hm]
      | succ n =>
        simp at h
        unfold mergeLists
        cases hm : mergeSlot e0 r <;> simp [hm, ih h]

theorem mergeLists_length (prev snap : List ScrapeResult) :
    (mergeLists prev snap).2.length = max prev.length snap.length := by
  induction prev generalizing snap with
  | nil =>
    induction snap with
    | nil => rfl
    | cons r rs ih =>
      unfold mergeLists
      simp at ih ⊢
      omega
  | cons e0 ps ih =>
    cases snap with
    | nil => simp [mergeLists]
    | cons r rs =>
      unfold mergeLists
      cases hm : mergeSlot e0 r <;> simp [hm, ih] <;> omega

/-- Indices beyond the snapshot are untouched by the merge. -/
theorem mergeLists_get_ge {prev snap : List ScrapeResult} {i : Nat}
    (h : snap.length ≤ i) :
    (mergeLists prev snap).2[i]? = prev[i]? := by
  induction prev generalizing snap i with
  | nil =>
    cases snap with
    | nil => rfl
    | cons r rs =>
      have h1 : (mergeLists [] (r :: rs)).2.length ≤ i := by
        rw [mergeLists_length]
        simpa using h
      rw [List.getElem?_eq_none h1, List.getElem?_eq_none (by simp)]
  | cons e0 ps ih =>
    cases snap with
    | nil => rfl
    | cons r rs =>
      cases i with
      | zero => simp at h
      | succ n =>
        simp at h
        unfold mergeLists
        cases hm : mergeSlot e0 r <;> simp [hm, ih h]

/-- When the `hasChanges` flag stays false, the rebuilt list is the
previous one. -/
theorem mergeLists_false {prev snap : List ScrapeResult}
    (h : (mergeLists prev snap).1 = false) :
    (mergeLists prev snap).2 = prev := by
  induction prev generalizing snap with
  | nil =>
    cases snap with
    | nil => rfl
    | cons r rs => simp [mergeLists] at h
  | cons e0 ps ih =>
    cases snap with
    | nil => rfl
    | cons r rs =>
      unfold mergeLists at h ⊢
      cases hm : mergeSlot e0 r <;> simp [hm] at h ⊢
      exact ih h

/-- The updater's returned value always equals (as a list value) the
rebuilt list. -/
theorem handlePollSuccessResults_eq (prev snap : List ScrapeResult) :
    handlePollSuccessResults prev snap = (mergeLists prev snap).2 := by
  unfold handlePollSuccessResults
  cases h : (mergeLists prev snap).1 with
  | false => simp [h, mergeLists_false h]
  | true => simp [h]

theorem handle_get_lt {prev snap : List ScrapeResult} {i : Nat}
    {e : ScrapeResult} (h : prev[i]? = some e) :
    (handlePollSuccessResults prev snap)[i]? =
      some (match snap[i]? with
            | some r => mergedSlot e r
            | none => e) := by
  rw [handlePollSuccessResults_eq]
  exact mergeLists_get_lt h

theorem jsOr_self_right (a b : Option Nat) : jsOr (jsOr a b) b = jsOr a b := by
  cases a <;> cases b <;> rfl

theorem jsOr_self (a : Option Nat) : jsOr a a = a := by
  cases a <;> rfl

theorem mergeLists_nil_right : ∀ prev : List ScrapeResult,
    mergeLists prev [] = (false, prev)
  | [] => rfl
  | _ :: _ => rfl

theorem mergeLists_nil_left (r : ScrapeResult) (rs : List ScrapeResult) :
    mergeLists [] (r :: rs) = (true, r :: (mergeLists [] rs).2) := rfl

theorem mergeLists_cons_cons (e : ScrapeResult) (ps : List ScrapeResult)
    (r : ScrapeResult) (rs : List ScrapeResult) :
    mergeLists (e :: ps) (r :: rs) =
      match mergeSlot e r with
      | some v => (true, v :: (mergeLists ps rs).2)
      | none => ((mergeLists ps rs).1, e :: (mergeLists ps rs).2) := rfl

theorem mergeSlot_eq_pending {e r : ScrapeResult}
    (hr : r.status = Status.pending) :
    mergeSlot e r =
      if e.status = Status.pending
      then some { r with originalExcelRow := jsOr e.originalExcelRow r.originalExcelRow }
      else none := by
  unfold mergeSlot
  rw [if_neg (by simp [hr])]

theorem mergeSlot_eq_resolved {e r : ScrapeResult}
    (hr : r.status ≠ Status.pending) :
    mergeSlot e r =
      if e.status ≠ r.status ∨ e.product ≠ r.product ∨ e.error ≠ r.error
      then some { r with originalExcelRow := jsOr e.originalExcelRow r.originalExcelRow }
      else none := by
  unfold mergeSlot
  rw [if_pos hr]

/-- A value just written by the merge is stable under re-merging the
same snapshot entry: either no further write happens, or the identical
value is written again. -/
theorem mergeSlot_write_stable {e r v : ScrapeResult}
    (h : mergeSlot e r = some v) :
    mergeSlot v r = none ∨ mergeSlot v r = some v := by
  by_cases hp : r.status = Status.pending
  · rw [mergeSlot_eq_pending hp] at h
    split at h
    · cases h
      right
      rw [mergeSlot_eq_pending hp, if_pos (show _ = Status.pending from hp)]
      simp [jsOr_self_right]
    · cases h
  · rw [mergeSlot_eq_resolved hp] at h
    split at h
    · cases h
      left
      rw [mergeSlot_eq_resolved hp, if_neg (by simp)]
    · cases h

theorem mergeSlot_self (r : ScrapeResult) :
    mergeSlot r r = none ∨ mergeSlot r r = some r := by
  by_cases hp : r.status = Status.pending
  · right
    rw [mergeSlot_eq_pending hp, if_pos hp, jsOr_self]
  · left
    rw [mergeSlot_eq_resolved hp, if_neg (by simp)]

/-- Value-level idempotence of the merge: re-merging the same snapshot
into the already-merged list rebuilds the same list. -/
theorem mergeLists_idem (prev snap : List ScrapeResult) :
    (mergeLists (mergeLists prev snap).2 snap).2 = (mergeLists prev snap).2 := by
  induction snap generalizing prev with
  | nil => rw [mergeLists_nil_right, mergeLists_nil_right]
  | cons r rs ih =>
    cases prev with
    | nil =>
      rw [mergeLists_nil_left, mergeLists_cons_cons]
      rcases mergeSlot_self r with hm | hm <;> simp [hm, ih []]
    | cons e ps =>
      rw [mergeLists_cons_cons]
      cases hm : mergeSlot e r with
      | some v =>
        simp only
        rw [mergeLists_cons_cons]
        rcases mergeSlot_write_stable hm with hv | hv <;> simp [hv, ih ps]
      | none =>
        simp only
        rw [mergeLists_cons_cons]
        simp [hm, ih ps]

/-- An all-equal, all-resolved snapshot produces no write at all. -/
theorem mergeLists_noop {prev snap : List ScrapeResult}
    (hlen : snap.length ≤ prev.length)
    (heq : ∀ p ∈ snap.zip prev, p.1.status ≠ Status.pending ∧
      p.1.status = p.2.status ∧ p.1.product = p.2.product ∧
      p.1.error = p.2.error) :
    mergeLists prev snap = (false, prev) := by
  induction snap generalizing prev with
  | nil => exact mergeLists_nil_right prev
  | cons r rs ih =>
    cases prev with
    | nil => simp at hlen
    | cons e ps =>
      obtain ⟨h1, h2, h3, h4⟩ := heq (r, e) (by simp)
      have h1' : r.status ≠ Status.pending := h1
      have h2' : r.status = e.status := h2
      have h3' : r.product = e.product := h3
      have h4' : r.error = e.error := h4
      have hrest : ∀ p ∈ rs.zip ps, p.1.status ≠ Status.pending ∧
          p.1.status = p.2.status ∧ p.1.product = p.2.product ∧
          p.1.error = p.2.error := by
        intro p hp
        exact heq p (by simp [hp])
      have hm : mergeSlot e r = none := by
        rw [mergeSlot_eq_resolved h1', if_neg (by simp [← h2', ← h3', ← h4'])]
      simp at hlen
      rw [mergeLists_cons_cons]
      simp [hm, ih hlen hrest]

/-- C1 counterexample: the claim that only `pending → success` and
`pending → error` transitions can occur during a merge is false on the
code.  A resolved snapshot entry whose status differs from an already
resolved local slot overwrites it, so a `success → error` transition
occurs: local slot 0 is `success` before the merge and `error` after. -/
theorem c1_counterexample :
    ([(⟨Status.success, some 1, none, none⟩ : ScrapeResult)].map ScrapeResult.status
      = [Status.success]) ∧
    (handlePollSuccessResults
        [⟨Status.success, some 1, none, none⟩]
        [⟨Status.error, none, some "boom", none⟩]).map ScrapeResult.status
      = [Status.error] := by
  constructor
  · rfl
  · rfl

/-- C1 (amended): a snapshot entry with status pending never overwrites
an already-resolved local slot, and no merge sets a slot back to
pending: a slot that is `success` or `error` before the merge is not
`pending` after it.  (A resolved slot can still be overwritten by a
differing resolved snapshot entry, e.g. `success → error`.) -/
theorem merge_no_pending_regression (prev snap : List ScrapeResult) (i : Nat)
    (e o : ScrapeResult) (he : prev[i]? = some e)
    (ho : (handlePollSuccessResults prev snap)[i]? = some o)
    (hres : e.status ≠ Status.pending) : o.status ≠ Status.pending := by
  rw [handle_get_lt he] at ho
  cases hs : snap[i]? with
  | none =>
    rw [hs] at ho
    simp at ho
    rw [← ho]
    exact hres
  | some r =>
    rw [hs] at ho
    simp at ho
    subst ho
    unfold mergedSlot
    cases hm : mergeSlot e r with
    | none => exact hres
    | some v =>
      simp
      rw [mergeSlot_status hm]
      intro hr
      exact hres (mergeSlot_pending hm hr)

/-- C1 witness: concrete application of the no-regression theorem; a
resolved `success` slot stays non-pending across a merge with a pending
snapshot entry. -/
theorem merge_no_pending_regression_witness :
    (⟨Status.success, some 1, none, some 2⟩ : ScrapeResult).status ≠ Status.pending :=
  merge_no_pending_regression
    [⟨Status.success, some 1, none, some 2⟩]
    [⟨Status.pending, none, none, none⟩] 0
    ⟨Status.success, some 1, none, some 2⟩
    ⟨Status.success, some 1, none, some 2⟩
    (by rfl) (by rfl) (by decide)

/-- C3 counterexample: merging a snapshot in which no entry's status,
payload or error differs from the local slot is claimed to return the
previous list itself (no change flagged).  With a pending entry over a
pending local slot the code's second branch rewrites the slot without
any equality check and sets `hasChanges`, so the flag is `true` even
though every compared field is identical. -/
theorem c3_counterexample :
    (mergeLists [⟨Status.pending, none, none, none⟩]
        [⟨Status.pending, none, none, none⟩]).1 = true ∧
    (mergeLists [⟨Status.pending, none, none, none⟩]
        [⟨Status.pending, none, none, none⟩]).2
      = [⟨Status.pending, none, none, none⟩] := by
  constructor
  · rfl
  · rfl

/-- C3 (amended): an identical snapshot whose entries are all resolved
is a true no-op — the merge reports no change and returns the previous
list; and in all cases merging the same snapshot a second time leaves
the result-list value unchanged (idempotence holds at value level, even
though a pending-over-pending merge re-flags a change). -/
theorem merge_idempotent :
    (∀ (prev snap : List ScrapeResult), snap.length ≤ prev.length →
      (∀ p ∈ snap.zip prev, p.1.status ≠ Status.pending ∧
        p.1.status = p.2.status ∧ p.1.product = p.2.product ∧
        p.1.error = p.2.error) →
      mergeLists prev snap = (false, prev) ∧
        handlePollSuccessResults prev snap = prev) ∧
    (∀ (prev snap : List ScrapeResult),
      handlePollSuccessResults (handlePollSuccessResults prev snap) snap
        = handlePollSuccessResults prev snap) := by
  constructor
  · intro prev snap hlen heq
    refine ⟨mergeLists_noop hlen heq, ?_⟩
    rw [handlePollSuccessResults_eq, mergeLists_noop hlen heq]
  · intro prev snap
    rw [handlePollSuccessResults_eq (handlePollSuccessResults prev snap) snap,
        handlePollSuccessResults_eq prev snap]
    exact mergeLists_idem prev snap

/-- C3 witness: the no-op case at a concrete resolved batch, and the
second-merge no-op at a concrete pending batch. -/
theorem merge_idempotent_witness :
    (mergeLists [⟨Status.success, some 1, none, some 7⟩]
        [⟨Status.success, some 1, none, none⟩]
      = (false, [⟨Status.success, some 1, none, some 7⟩]) ∧
     handlePollSuccessResults [⟨Status.success, some 1, none, some 7⟩]
        [⟨Status.success, some 1, none, none⟩]
      = [⟨Status.success, some 1, none, some 7⟩]) ∧
    handlePollSuccessResults
        (handlePollSuccessResults [⟨Status.pending, none, none, some 4⟩]
          [⟨Status.pending, none, none, none⟩])
        [⟨Status.pending, none, none, none⟩]
      = handlePollSuccessResults [⟨Status.pending, none, none, some 4⟩]
          [⟨Status.pending, none, none, none⟩] :=
  ⟨merge_idempotent.1 _ _ (by decide) (by decide), merge_idempotent.2 _ _⟩

/-- C6 counterexample: the claim that a merged slot's metadata is never
derived from the snapshot entry is false on the code.  The merge writes
`existing?.originalExcelRow || result.originalExcelRow`: when the prior
local slot carries no metadata, the snapshot entry's metadata is taken.
Here the prior slot has none and the merged slot carries the snapshot's
row 9. -/
theorem c6_counterexample :
    ((⟨Status.pending, none, none, none⟩ : ScrapeResult).originalExcelRow = none) ∧
    handlePollSuccessResults [⟨Status.pending, none, none, none⟩]
        [⟨Status.success, some 2, none, some 9⟩]
      = [⟨Status.success, some 2, none, some 9⟩] := by
  constructor
  · rfl
  · rfl

/-- C6 (amended): metadata that the prior local slot carries is copied
forward unchanged by every merge that touches the slot; only when the
prior slot carries none does the merge fall back to the snapshot
entry's metadata field. -/
theorem merge_preserves_metadata (prev snap : List ScrapeResult) (i : Nat)
    (e o : ScrapeResult) (he : prev[i]? = some e)
    (ho : (handlePollSuccessResults prev snap)[i]? = some o) :
    (∀ v, e.originalExcelRow = some v → o.originalExcelRow = some v) ∧
    (e.originalExcelRow = none →
      o.originalExcelRow = none ∨
        ∃ r, snap[i]? = some r ∧ o.originalExcelRow = r.originalExcelRow) := by
  rw [handle_get_lt he] at ho
  cases hs : snap[i]? with
  | none =>
    rw [hs] at ho
    simp at ho
    subst ho
    exact ⟨fun v hv => hv, fun hn => Or.inl hn⟩
  | some r =>
    rw [hs] at ho
    simp at ho
    subst ho
    unfold mergedSlot
    cases hm : mergeSlot e r with
    | none => exact ⟨fun v hv => hv, fun hn => Or.inl hn⟩
    | some v =>
      simp only [Option.getD_some]
      refine ⟨?_, ?_⟩
      · intro w hw
        rw [mergeSlot_row hm, hw]
        rfl
      · intro hn
        refine Or.inr ⟨r, rfl, ?_⟩
        rw [mergeSlot_row hm, hn]
        rfl

/-- C6 witness: concrete application — a slot carrying row 4 keeps row
4 across a merge that resolves it. -/
theorem merge_preserves_metadata_witness :
    (⟨Status.success, some 1, none, some 4⟩ : ScrapeResult).originalExcelRow = some 4 :=
  (merge_preserves_metadata
    [⟨Status.pending, none, none, some 4⟩]
    [⟨Status.success, some 1, none, some 9⟩] 0
    ⟨Status.pending, none, none, some 4⟩
    ⟨Status.success, some 1, none, some 4⟩
    (by rfl) (by rfl)).1 4 (by rfl)

/-- C10: a merge never shrinks the local result list — the merged
length is the maximum of the local and snapshot lengths, every local
slot beyond the snapshot's length is left exactly unchanged, and the
list keeps its length whenever the snapshot is not longer. -/
theorem merge_no_truncation (prev snap : List ScrapeResult) :
    prev.length ≤ (handlePollSuccessResults prev snap).length ∧
    (handlePollSuccessResults prev snap).length = max prev.length snap.length ∧
    (∀ i, snap.length ≤ i → (handlePollSuccessResults prev snap)[i]? = prev[i]?) := by
  rw [handlePollSuccessResults_eq]
  refine ⟨?_, mergeLists_length prev snap, fun i hi => mergeLists_get_ge hi⟩
  rw [mergeLists_length]
  exact Nat.le_max_left _ _

/-- C10 witness: a two-slot batch merged with a one-entry snapshot
keeps length two and keeps slot 1 untouched. -/
theorem merge_no_truncation_witness :
    (handlePollSuccessResults
        [⟨Status.pending, none, none, some 1⟩, ⟨Status.success, some 5, none, some 2⟩]
        [⟨Status.error, none, some "x", none⟩]).length = 2 ∧
    (handlePollSuccessResults
        [⟨Status.pending, none, none, some 1⟩, ⟨Status.success, some 5, none, some 2⟩]
        [⟨Status.error, none, some "x", none⟩])[1]?
      = some ⟨Status.success, some 5, none, some 2⟩ :=
  ⟨((merge_no_truncation _ _).2.1).trans (by decide),
   ((merge_no_truncation _ _).2.2 1 (by decide)).trans (by rfl)⟩

theorem stopPolling_inFlight (s : PollerState) :
    (stopPolling s).inFlight = s.inFlight := rfl

theorem effectBody_inFlight (cfg : PollerConfig) (now : Nat) (s : PollerState) :
    (effectBody cfg now s).inFlight = s.inFlight := by
  unfold effectBody
  split
  · rfl
  · split <;> rfl

theorem canLaunch_stopPolling (s : PollerState) :
    canLaunch (stopPolling s) = false := by
  unfold canLaunch stopPolling
  simp

/-- Preservation of the single-in-flight invariant by every event other
than a disablement. -/
theorem c2Inv_preserved {cfg : PollerConfig} {s : PollerState} {e : PollerEvent}
    (hd : e.isDisable = false) (h : C2Inv s) : C2Inv (step cfg s e) := by
  obtain ⟨h1, h2⟩ := h
  cases e with
  | setEnabled now b =>
    cases b with
    | false => simp [PollerEvent.isDisable] at hd
    | true =>
      simp only [step]
      split
      · exact ⟨h1, h2⟩
      split
      · exact ⟨h1, h2⟩
      rename_i hmo hne
      have he : s.enabledRef = false := by
        cases hef : s.enabledRef with
        | false => rfl
        | true => rw [hef] at hne; simp at hne
      have h0 : s.inFlight = 0 := by
        by_contra hc
        have := (h2 (by omega)).1
        rw [he] at this
        cases this
      constructor
      · rw [effectBody_inFlight, stopPolling_inFlight]
        show s.inFlight ≤ 1
        omega
      · intro hcontra
        rw [effectBody_inFlight, stopPolling_inFlight] at hcontra
        have : s.inFlight = 1 := hcontra
        omega
  | initialFire =>
    simp only [step]
    split
    · exact ⟨h1, h2⟩
    rename_i hit
    have hit' : s.initialTimer = true := by
      cases hx : s.initialTimer with
      | false => rw [hx] at hit; simp at hit
      | true => rfl
    split
    · -- a guard failed; only the initial timer stops pending
      rename_i hguard
      refine ⟨h1, fun hi1 => ?_⟩
      obtain ⟨ha, hb⟩ := h2 hi1
      refine ⟨ha, ?_⟩
      unfold canLaunch at hb ⊢
      simp only [hit'] at hb
      cases hmo : s.mounted <;> cases hp : s.isPollingRef <;>
        cases hint : s.intervalTimer <;> simp_all
    · -- the fetch launches
      rename_i hguard
      have hcl : canLaunch s = true := by
        unfold canLaunch
        rw [hit']
        simp only [Bool.not_or, Bool.not_eq_true] at hguard
        cases hmo : s.mounted <;> cases hen : s.enabledRef <;>
          cases hp : s.isPollingRef <;> simp_all
      have h0 : s.inFlight = 0 := by
        by_contra hc
        have := (h2 (by omega)).2
        rw [hcl] at this
        cases this
      have hen : s.enabledRef = true := by
        simp only [Bool.not_or, Bool.not_eq_true] at hguard
        cases hen : s.enabledRef <;> simp_all
      constructor
      · show s.inFlight + 1 ≤ 1
        omega
      · intro _
        exact ⟨hen, by unfold canLaunch pollStart; simp⟩
  | tick now =>
    simp only [step]
    split
    · exact ⟨h1, h2⟩
    rename_i hint
    have hint' : s.intervalTimer = true := by
      cases hx : s.intervalTimer with
      | false => rw [hx] at hint; simp at hint
      | true => rfl
    split
    · -- a liveness guard failed: stopPolling
      rename_i hguard
      refine ⟨h1, fun hi1 => ?_⟩
      exact ⟨(h2 hi1).1, canLaunch_stopPolling s⟩
    split
    · -- busy: skipped
      exact ⟨h1, h2⟩
    split
    · -- max duration exceeded: stopPolling plus error
      rename_i hguard hbusy hexp
      refine ⟨h1, fun hi1 => ?_⟩
      refine ⟨(h2 hi1).1, ?_⟩
      unfold canLaunch stopPolling
      simp
    · -- the fetch launches
      rename_i hguard hbusy hexp
      have hcl : canLaunch s = true := by
        unfold canLaunch
        rw [hint']
        simp only [Bool.not_or, Bool.not_eq_true] at hguard
        simp only [Bool.not_eq_true] at hbusy
        cases hmo : s.mounted <;> cases hen : s.enabledRef <;>
          cases hp : s.isPollingRef <;> simp_all
      have h0 : s.inFlight = 0 := by
        by_contra hc
        have := (h2 (by omega)).2
        rw [hcl] at this
        cases this
      have hen : s.enabledRef = true := by
        simp only [Bool.not_or, Bool.not_eq_true] at hguard
        cases hen : s.enabledRef <;> simp_all
      constructor
      · show s.inFlight + 1 ≤ 1
        omega
      · intro _
        exact ⟨hen, by unfold canLaunch pollStart; simp⟩
  | maxFire =>
    simp only [step]
    split
    · exact ⟨h1, h2⟩
    split
    · -- mounted and enabled: stopPolling plus error
      rename_i hto hlive
      refine ⟨h1, fun hi1 => ?_⟩
      refine ⟨(h2 hi1).1, ?_⟩
      unfold canLaunch stopPolling
      simp
    · -- fired while dead: only the timeout stops pending
      rename_i hto hlive
      refine ⟨h1, fun hi1 => ?_⟩
      obtain ⟨ha, hb⟩ := h2 hi1
      refine ⟨ha, ?_⟩
      unfold canLaunch at hb ⊢
      simpa using hb
  | fetchSuccess d =>
    simp only [step]
    split
    · exact ⟨h1, h2⟩
    rename_i hf
    split
    · -- resolved after unmount
      rename_i hmo
      refine ⟨by show s.inFlight - 1 ≤ 1; omega, fun hi1 => ?_⟩
      have hi1' : s.inFlight - 1 = 1 := hi1
      omega
    split
    · -- stop predicate satisfied: stopPolling
      refine ⟨by show s.inFlight - 1 ≤ 1; omega, fun hi1 => ?_⟩
      have hi1' : s.inFlight - 1 = 1 := hi1
      omega
    · -- continue polling
      refine ⟨by show s.inFlight - 1 ≤ 1; omega, fun hi1 => ?_⟩
      have hi1' : s.inFlight - 1 = 1 := hi1
      omega
  | fetchFailure msg =>
    simp only [step]
    split
    · exact ⟨h1, h2⟩
    rename_i hf
    split
    · refine ⟨by show s.inFlight - 1 ≤ 1; omega, fun hi1 => ?_⟩
      have hi1' : s.inFlight - 1 = 1 := hi1
      omega
    · refine ⟨by show s.inFlight - 1 ≤ 1; omega, fun hi1 => ?_⟩
      have hi1' : s.inFlight - 1 = 1 := hi1
      omega
  | unmount =>
    simp only [step]
    split
    · exact ⟨h1, h2⟩
    refine ⟨h1, fun hi1 => ?_⟩
    exact ⟨(h2 hi1).1, canLaunch_stopPolling _⟩

theorem c2Inv_run (cfg : PollerConfig) (tr : List PollerEvent)
    (hd : ∀ e ∈ tr, e.isDisable = false) (s : PollerState) (h : C2Inv s) :
    C2Inv (run cfg s tr) := by
  induction tr generalizing s with
  | nil => exact h
  | cons e es ih =>
    exact ih (fun e' he' => hd e' (List.mem_cons_of_mem _ he')) _
      (c2Inv_preserved (hd e (List.mem_cons_self _ _)) h)

/-- C2 counterexample: the in-flight fetch count of a single
`usePolling` instance can exceed 1.  Disabling the hook while a fetch
is outstanding runs `stopPolling`, which resets `isPollingRef` without
cancelling the fetch; re-enabling then launches a second fetch while
the first is still outstanding, so two fetches of the same Poller are
in flight at once. -/
theorem c2_counterexample :
    (run cfg0 pollerInit c2Trace).inFlight = 2 ∧
    ¬ (run cfg0 pollerInit c2Trace).inFlight ≤ 1 := by
  constructor
  · rfl
  · decide

/-- C2 (amended): during any stretch of execution containing no
disablement, at most one fetch is ever outstanding — a tick or the
initial timeout that fires while the in-progress flag is set launches
nothing.  (Only a disable–re-enable cycle around an outstanding fetch
can break this, since disabling resets the in-progress flag without
cancelling the fetch.) -/
theorem poller_single_flight (cfg : PollerConfig) (tr : List PollerEvent)
    (hd : ∀ e ∈ tr, e.isDisable = false) :
    (run cfg pollerInit tr).inFlight ≤ 1 :=
  (c2Inv_run cfg tr hd pollerInit
    ⟨Nat.zero_le 1, fun hc => absurd hc (by decide)⟩).1

/-- C2 witness: a disablement-free trace that enables, fetches and
resolves keeps the in-flight count at most 1. -/
theorem poller_single_flight_witness :
    (run cfg0 pollerInit
      [PollerEvent.setEnabled 0 true, PollerEvent.initialFire,
       PollerEvent.fetchSuccess 5, PollerEvent.tick 3]).inFlight ≤ 1 :=
  poller_single_flight cfg0 _ (by decide)

/-- C4 counterexample: after the trace enable → launch fetch → disable,
the hook is disabled with one fetch still outstanding and no data yet;
when that fetch resolves, the handler re-checks only `mountedRef`, not
`enabledRef`, so it still writes `setData` and invokes the success
callback — observable state does change. -/
theorem c4_counterexample :
    (run cfg0 pollerInit c4Trace).enabledRef = false ∧
    (run cfg0 pollerInit c4Trace).inFlight = 1 ∧
    (run cfg0 pollerInit c4Trace).dataVal = none ∧
    (step cfg0 (run cfg0 pollerInit c4Trace) (.fetchSuccess 7)).dataVal = some 7 ∧
    (step cfg0 (run cfg0 pollerInit c4Trace) (.fetchSuccess 7)).onSuccessCount
      = (run cfg0 pollerInit c4Trace).onSuccessCount + 1 :=
  ⟨rfl, rfl, rfl, rfl, rfl⟩

/-- C4 (amended): the consumer's result list is protected — the success
callback returns before the merge when the job id has been cleared —
and after unmount a late fetch mutates nothing observable; but the
Poller's own data/error outputs are still written by a fetch that
resolves after disablement while the component stays mounted. -/
theorem poller_disabled_guarded :
    (∀ prev snapshot : List ScrapeResult,
      handlePollSuccessMerge none prev snapshot = prev) ∧
    (∀ (cfg : PollerConfig) (s : PollerState) (d : Nat) (msg : String),
      s.mounted = false →
      ((step cfg s (.fetchSuccess d)).dataVal = s.dataVal ∧
       (step cfg s (.fetchSuccess d)).errorVal = s.errorVal ∧
       (step cfg s (.fetchSuccess d)).onSuccessCount = s.onSuccessCount) ∧
      ((step cfg s (.fetchFailure msg)).errorVal = s.errorVal ∧
       (step cfg s (.fetchFailure msg)).onErrorCount = s.onErrorCount)) := by
  constructor
  · intro prev snapshot
    rfl
  · intro cfg s d msg hm
    constructor
    · simp only [step]
      split
      · exact ⟨rfl, rfl, rfl⟩
      · rw [if_pos (by simp [hm])]
        exact ⟨rfl, rfl, rfl⟩
    · simp only [step]
      split
      · exact ⟨rfl, rfl⟩
      · rw [if_pos (by simp [hm])]
        exact ⟨rfl, rfl⟩

/-- C4 witness: the guard and the unmount frame conditions at concrete
inputs. -/
theorem poller_disabled_guarded_witness :
    handlePollSuccessMerge none [⟨Status.pending, none, none, some 1⟩]
        [⟨Status.success, some 2, none, none⟩]
      = [⟨Status.pending, none, none, some 1⟩] ∧
    (step cfg0 (stopPolling { pollerStateEx with mounted := false })
        (.fetchSuccess 7)).dataVal
      = (stopPolling { pollerStateEx with mounted := false }).dataVal :=
  ⟨poller_disabled_guarded.1 _ _,
   ((poller_disabled_guarded.2 cfg0
      (stopPolling { pollerStateEx with mounted := false }) 7 "m" rfl).1).1⟩

theorem timersCleared_stopPolling (s : PollerState) :
    timersCleared (stopPolling s) := ⟨rfl, rfl, rfl⟩

/-- C5: every exit path of the Poller — disablement, stop-predicate
satisfaction, max-duration expiry observed by a tick, the max-duration
timeout itself, a tick observing lost liveness, and unmount — leaves
all three timers cleared and nulled. -/
theorem poller_exit_clears_timers (cfg : PollerConfig) (s : PollerState)
    (now : Nat) (d : Nat) :
    (s.mounted = true → s.enabledRef = true →
      timersCleared (step cfg s (.setEnabled now false))) ∧
    (s.inFlight ≠ 0 → s.mounted = true → cfg.shouldStop d = true →
      timersCleared (step cfg s (.fetchSuccess d))) ∧
    (s.intervalTimer = true → s.mounted = true → s.enabledRef = true →
      s.isPollingRef = false → expired cfg now s = true →
      timersCleared (step cfg s (.tick now))) ∧
    (s.intervalTimer = true → (s.mounted = false ∨ s.enabledRef = false) →
      timersCleared (step cfg s (.tick now))) ∧
    (s.timeoutTimer = true → s.mounted = true → s.enabledRef = true →
      timersCleared (step cfg s .maxFire)) ∧
    (s.mounted = true → timersCleared (step cfg s .unmount)) := by
  refine ⟨?_, ?_, ?_, ?_, ?_, ?_⟩
  · intro hm he
    simp only [step]
    rw [if_neg (by simp [hm]), if_neg (by simp [he])]
    unfold effectBody
    rw [if_pos (by simp [stopPolling])]
    exact timersCleared_stopPolling _
  · intro hf hm hstop
    simp only [step]
    rw [if_neg hf, if_neg (by simp [hm]), if_pos hstop]
    exact timersCleared_stopPolling _
  · intro hint hm he hp hexp
    simp only [step]
    rw [if_neg (by simp [hint]), if_neg (by simp [hm, he]),
        if_neg (by simp [hp]), if_pos hexp]
    exact ⟨rfl, rfl, rfl⟩
  · intro hint hdead
    simp only [step]
    rw [if_neg (by simp [hint]), if_pos (by
      rcases hdead with hm | he
      · simp [hm]
      · simp [he])]
    exact timersCleared_stopPolling _
  · intro hto hm he
    simp only [step]
    rw [if_neg (by simp [hto]), if_pos (by simp [hm, he])]
    exact ⟨rfl, rfl, rfl⟩
  · intro hm
    simp only [step]
    rw [if_neg (by simp [hm])]
    exact timersCleared_stopPolling _

/-- C5 witness: all six exit paths at a concrete mid-poll state with
every timer pending. -/
theorem poller_exit_clears_timers_witness :
    timersCleared (step pollerCfgEx pollerStateEx (.setEnabled 20 false)) ∧
    timersCleared (step pollerCfgEx pollerStateEx (.fetchSuccess 3)) ∧
    timersCleared (step pollerCfgEx pollerStateEx (.tick 20)) ∧
    timersCleared (step pollerCfgEx
      { pollerStateEx with enabledRef := false } (.tick 20)) ∧
    timersCleared (step pollerCfgEx pollerStateEx .maxFire) ∧
    timersCleared (step pollerCfgEx pollerStateEx .unmount) :=
  ⟨(poller_exit_clears_timers pollerCfgEx pollerStateEx 20 3).1 rfl rfl,
   (poller_exit_clears_timers pollerCfgEx pollerStateEx 20 3).2.1
     (by decide) rfl rfl,
   (poller_exit_clears_timers pollerCfgEx pollerStateEx 20 3).2.2.1
     rfl rfl rfl rfl (by decide),
   (poller_exit_clears_timers pollerCfgEx
     { pollerStateEx with enabledRef := false } 20 3).2.2.2.1
     rfl (Or.inr rfl),
   (poller_exit_clears_timers pollerCfgEx pollerStateEx 20 3).2.2.2.2.1
     rfl rfl rfl,
   (poller_exit_clears_timers pollerCfgEx pollerStateEx 20 3).2.2.2.2.2 rfl⟩

/-- C9: a rejected fetch reports the error — the error state is set and
the error callback fires — but ends nothing: all three timers, the
`isPolling` flag and the start time are exactly as before, so polling
continues until an explicit stop condition. -/
theorem poller_failure_continues (cfg : PollerConfig) (s : PollerState)
    (msg : String) (hf : s.inFlight ≠ 0) (hm : s.mounted = true) :
    (step cfg s (.fetchFailure msg)).errorVal = some msg ∧
    (step cfg s (.fetchFailure msg)).onErrorCount = s.onErrorCount + 1 ∧
    (step cfg s (.fetchFailure msg)).intervalTimer = s.intervalTimer ∧
    (step cfg s (.fetchFailure msg)).timeoutTimer = s.timeoutTimer ∧
    (step cfg s (.fetchFailure msg)).initialTimer = s.initialTimer ∧
    (step cfg s (.fetchFailure msg)).isPolling = s.isPolling ∧
    (step cfg s (.fetchFailure msg)).startTime = s.startTime ∧
    (step cfg s (.fetchFailure msg)).inFlight = s.inFlight - 1 := by
  simp only [step]
  rw [if_neg hf, if_neg (by simp [hm])]
  exact ⟨rfl, rfl, rfl, rfl, rfl, rfl, rfl, rfl⟩

/-- C9 witness: a concrete failing fetch in mid-poll keeps every timer
pending and records the message. -/
theorem poller_failure_continues_witness :
    (step pollerCfgEx pollerStateEx (.fetchFailure "boom")).errorVal
      = some "boom" ∧
    (step pollerCfgEx pollerStateEx (.fetchFailure "boom")).intervalTimer
      = pollerStateEx.intervalTimer :=
  ⟨(poller_failure_continues pollerCfgEx pollerStateEx "boom"
      (by decide) rfl).1,
   (poller_failure_continues pollerCfgEx pollerStateEx "boom"
      (by decide) rfl).2.2.1⟩

theorem retryInv_preserved {st : RetryState} {e : RetryEvent}
    (h : RetryInv st) : RetryInv (retryStep st e) := by
  obtain ⟨h1, h2, h3, h4⟩ := h
  cases e with
  | clickOne i =>
    simp only [retryStep]
    split
    · rename_i slot hb
      split
      · rename_i hg
        have hd : st.retryingIndices.contains i = false ∧
            st.isRetryingAll = false := by
          have := hg.2
          unfold retryOneDisabled at this
          constructor
          · cases hx : st.retryingIndices.contains i <;> simp_all
          · cases hx : st.isRetryingAll <;> simp_all
        have hni : i ∉ st.inFlightOne := by
          intro hmem
          have htrue : List.elem i st.retryingIndices = true :=
            List.elem_eq_true_of_mem (h2 i hmem)
          have hfalse : List.elem i st.retryingIndices = false := hd.1
          rw [htrue] at hfalse
          cases hfalse
        refine ⟨List.Nodup.cons hni h1, ?_, h3, ?_⟩
        · intro j hj
          rcases List.mem_cons.mp hj with hj | hj
          · exact hj ▸ List.mem_cons_self _ _
          · exact List.mem_cons_of_mem _ (h2 j hj)
        · intro hcontra
          rw [hd.2] at hcontra
          cases hcontra
      · exact ⟨h1, h2, h3, h4⟩
    · exact ⟨h1, h2, h3, h4⟩
  | resolveOne i r =>
    simp only [retryStep]
    split
    · refine ⟨List.Nodup.erase i h1, ?_, h3, ?_⟩
      · intro j hj
        have hj' := (List.Nodup.mem_erase_iff h1).mp hj
        exact (List.mem_erase_of_ne hj'.1).mpr (h2 j hj'.2)
      · intro hall
        rw [h4 hall]
        rfl
    · exact ⟨h1, h2, h3, h4⟩
  | clickAll =>
    simp only [retryStep]
    split
    · rename_i hg
      have hd := hg.2
      unfold retryAllDisabled at hd
      have hra : st.isRetryingAll = false := by
        cases hx : st.isRetryingAll with
        | false => rfl
        | true => rw [hx] at hd; simp at hd
      have hlen : ¬ st.retryingIndices.length > 0 := by
        intro hc
        rw [hra] at hd
        simp [hc] at hd
      have hreg : st.retryingIndices = [] :=
        List.eq_nil_of_length_eq_zero (by omega)
      have hone : st.inFlightOne = [] := by
        cases hx : st.inFlightOne with
        | nil => rfl
        | cons a as =>
          have := h2 a (hx ▸ List.mem_cons_self a as)
          rw [hreg] at this
          cases this
      refine ⟨h1, h2, ?_, fun _ => hone⟩
      rw [h3, hra]
      simp
    · exact ⟨h1, h2, h3, h4⟩
  | resolveAll response =>
    simp only [retryStep]
    split
    · rename_i hne
      refine ⟨h1, h2, ?_, ?_⟩
      · rw [h3]
        cases hx : st.isRetryingAll <;> simp_all
      · intro hcontra
        cases hcontra
    · exact ⟨h1, h2, h3, h4⟩
  | setScraping b => exact ⟨h1, h2, h3, h4⟩

theorem retryInv_run_aux (tr : List RetryEvent) (st : RetryState)
    (h : RetryInv st) : RetryInv (retryRun st tr) := by
  induction tr generalizing st with
  | nil => exact h
  | cons e es ih => exact ih _ (retryInv_preserved h)

theorem retryInv_run (batch : List ScrapeResult) (tr : List RetryEvent) :
    RetryInv (retryRun (retryInit batch) tr) :=
  retryInv_run_aux tr _
    ⟨List.nodup_nil, fun i hi => absurd hi (List.not_mem_nil i), rfl,
     fun _ => rfl⟩

/-- C7: exclusive retry.  In every state reachable from a fresh batch:
each slot index has at most one single-slot retry in flight; at most
one retry-all is in flight; any index with an outstanding retry keeps
its per-row retry button disabled, and while any individual retry is
outstanding the retry-all button is disabled.  Moreover (for every
state) a click on a disabled button is a no-op: an index in the
retrying set cannot start a second retry, and retry-all cannot start
while an individual retry is outstanding, another retry-all runs, or
main scraping is in progress. -/
theorem retry_exclusive :
    (∀ (batch : List ScrapeResult) (tr : List RetryEvent),
      (∀ i, (retryRun (retryInit batch) tr).inFlightOne.count i ≤ 1) ∧
      (retryRun (retryInit batch) tr).inFlightAll ≤ 1 ∧
      (∀ i ∈ (retryRun (retryInit batch) tr).inFlightOne,
        retryOneDisabled (retryRun (retryInit batch) tr) i = true) ∧
      ((retryRun (retryInit batch) tr).inFlightOne ≠ [] →
        retryAllDisabled (retryRun (retryInit batch) tr) = true)) ∧
    (∀ (st : RetryState) (i : Nat), st.retryingIndices.contains i = true →
      retryStep st (.clickOne i) = st) ∧
    (∀ st : RetryState, retryAllDisabled st = true →
      retryStep st RetryEvent.clickAll = st) := by
  refine ⟨?_, ?_, ?_⟩
  · intro batch tr
    obtain ⟨h1, h2, h3, h4⟩ := retryInv_run batch tr
    refine ⟨fun i => List.nodup_iff_count_le_one.mp h1 i, ?_, ?_, ?_⟩
    · rw [h3]
      split <;> omega
    · intro i hi
      unfold retryOneDisabled
      have : List.elem i (retryRun (retryInit batch) tr).retryingIndices = true :=
        List.elem_eq_true_of_mem (h2 i hi)
      have hc : (retryRun (retryInit batch) tr).retryingIndices.contains i = true :=
        this
      rw [hc]
      simp
    · intro hne
      unfold retryAllDisabled
      cases hx : (retryRun (retryInit batch) tr).inFlightOne with
      | nil => exact absurd hx hne
      | cons a as =>
        have : a ∈ (retryRun (retryInit batch) tr).retryingIndices :=
          h2 a (hx ▸ List.mem_cons_self a as)
        have hlen : (retryRun (retryInit batch) tr).retryingIndices.length > 0 := by
          cases hy : (retryRun (retryInit batch) tr).retryingIndices with
          | nil => rw [hy] at this; cases this
          | cons b bs => simp [hy]
        rw [decide_eq_true hlen]
        simp
  · intro st i hc
    simp only [retryStep]
    split
    · rename_i slot hb
      rw [if_neg]
      intro hg
      have := hg.2
      unfold retryOneDisabled at this
      rw [hc] at this
      simp at this
    · rfl
  · intro st hd
    simp only [retryStep]
    rw [if_neg]
    intro hg
    rw [hd] at hg
    cases hg.2

/-- C7 witness: after one accepted single-slot retry on index 0, a
second click on index 0 is a no-op and retry-all is a no-op; the count
bounds hold. -/
theorem retry_exclusive_witness :
    (retryRun (retryInit c8Batch) [RetryEvent.clickOne 0]).inFlightOne.count 0 ≤ 1 ∧
    retryStep (retryRun (retryInit c8Batch) [RetryEvent.clickOne 0])
        (RetryEvent.clickOne 0)
      = retryRun (retryInit c8Batch) [RetryEvent.clickOne 0] ∧
    retryStep (retryRun (retryInit c8Batch) [RetryEvent.clickOne 0])
        RetryEvent.clickAll
      = retryRun (retryInit c8Batch) [RetryEvent.clickOne 0] :=
  ⟨(retry_exclusive.1 c8Batch [RetryEvent.clickOne 0]).1 0,
   retry_exclusive.2.1 _ 0 (by decide),
   retry_exclusive.2.2 _ (by decide)⟩

theorem collectErrorIndicesFrom_mem {batch : List ScrapeResult} {k j : Nat}
    (h : j ∈ collectErrorIndicesFrom k batch) :
    k ≤ j ∧ ∃ s, batch[j - k]? = some s ∧ s.status = Status.error := by
  induction batch generalizing k with
  | nil => simp [collectErrorIndicesFrom] at h
  | cons s0 rest ih =>
    unfold collectErrorIndicesFrom at h
    by_cases hs : s0.status = Status.error
    · rw [if_pos hs] at h
      rcases List.mem_cons.mp h with hj | hj
      · subst hj
        exact ⟨Nat.le_refl _, s0, by simp, hs⟩
      · obtain ⟨hk, s, hget, herr⟩ := ih hj
        refine ⟨by omega, s, ?_, herr⟩
        have hidx : j - k = (j - (k + 1)) + 1 := by omega
        rw [hidx]
        simpa using hget
    · rw [if_neg hs] at h
      obtain ⟨hk, s, hget, herr⟩ := ih h
      refine ⟨by omega, s, ?_, herr⟩
      have hidx : j - k = (j - (k + 1)) + 1 := by omega
      rw [hidx]
      simpa using hget

theorem mem_collectErrorIndicesFrom {batch : List ScrapeResult} {j : Nat}
    {s : ScrapeResult} (hj : batch[j]? = some s)
    (hs : s.status = Status.error) :
    ∀ k, (k + j) ∈ collectErrorIndicesFrom k batch := by
  induction batch generalizing j with
  | nil => simp at hj
  | cons s0 rest ih =>
    intro k
    cases j with
    | zero =>
      simp at hj
      subst hj
      unfold collectErrorIndicesFrom
      rw [if_pos hs]
      exact List.mem_cons_self _ _
    | succ n =>
      simp at hj
      have hrec := ih hj (k + 1)
      have hidx : k + (n + 1) = (k + 1) + n := by omega
      unfold collectErrorIndicesFrom
      by_cases h0 : s0.status = Status.error
      · rw [if_pos h0]
        exact List.mem_cons_of_mem _ (hidx ▸ hrec)
      · rw [if_neg h0]
        exact hidx ▸ hrec

theorem splice_untouched {l : List (Nat × ScrapeResult)} {i : Nat} :
    ∀ {acc : List ScrapeResult}, (∀ p ∈ l, p.1 ≠ i) →
    (l.foldl
      (fun acc p =>
        match acc[p.1]? with
        | some slot => acc.set p.1 (applyRetryResult slot p.2)
        | none => acc)
      acc)[i]? = acc[i]? := by
  induction l with
  | nil => intro acc _; rfl
  | cons p ps ih =>
    intro acc h
    rw [List.foldl_cons]
    rw [ih (fun q hq => h q (List.mem_cons_of_mem _ hq))]
    have hne : p.1 ≠ i := h p (List.mem_cons_self _ _)
    cases hb : acc[p.1]? with
    | none => rfl
    | some slot => simp [List.getElem?_set_ne hne]

/-- C8: retry-all collects exactly the currently-error slot indices
(in order), and splicing the retry response back through the captured
index map touches only those indices — every non-error slot keeps its
exact value.  On the claim's example batch
`[A(error), B(success), C(error), D(error)]` the collected map is
`[0, 2, 3]` and the response `[ok, fail, ok]` yields
`A→success, C→error, D→success` with `B` (and all metadata) untouched. -/
theorem retry_all_index_map :
    (∀ (batch : List ScrapeResult) (j : Nat),
      j ∈ collectErrorIndices batch ↔
        ∃ s, batch[j]? = some s ∧ s.status = Status.error) ∧
    (∀ (batch response : List ScrapeResult) (i : Nat) (s : ScrapeResult),
      batch[i]? = some s → s.status ≠ Status.error →
      (retryAllSplice batch response)[i]? = some s) ∧
    (collectErrorIndices c8Batch = [0, 2, 3] ∧
     retryAllSplice c8Batch c8Response
       = [⟨Status.success, some 2, none, some 10⟩,
          ⟨Status.success, some 1, none, some 11⟩,
          ⟨Status.error, none, some "f", some 12⟩,
          ⟨Status.success, some 3, none, some 13⟩]) := by
  refine ⟨?_, ?_, by constructor <;> rfl⟩
  · intro batch j
    constructor
    · intro h
      obtain ⟨-, s, hget, herr⟩ := collectErrorIndicesFrom_mem h
      exact ⟨s, by simpa using hget, herr⟩
    · intro ⟨s, hget, herr⟩
      have := mem_collectErrorIndicesFrom hget herr 0
      simpa using this
  · intro batch response i s hi hni
    unfold retryAllSplice spliceRetryResults
    rw [splice_untouched, hi]
    intro p hp
    intro hcontra
    have hp1 := (List.of_mem_zip hp).1
    obtain ⟨-, s', hget, herr⟩ := collectErrorIndicesFrom_mem hp1
    rw [hcontra] at hget
    simp at hget
    rw [hi] at hget
    cases hget
    exact hni herr

/-- C8 witness: on the example batch, the success slot B is untouched
by the splice, and index 0 is collected. -/
theorem retry_all_index_map_witness :
    (retryAllSplice c8Batch c8Response)[1]?
      = some ⟨Status.success, some 1, none, some 11⟩ ∧
    0 ∈ collectErrorIndices c8Batch :=
  ⟨retry_all_index_map.2.1 c8Batch c8Response 1
      ⟨Status.success, some 1, none, some 11⟩ (by rfl) (by decide),
   (retry_all_index_map.1 c8Batch 0).mpr
      ⟨⟨Status.error, none, some "a", some 10⟩, by rfl, by rfl⟩⟩

end ProductScraper
